import Mathlib

/-!
# Verification of the divan benchmarking core against its specification

This file gives a shallow embedding of the divan repository's core
algorithms — the picosecond duration model and its display formatting
(`src/time/fine_duration.rs`), the `#[divan::bench]` registration macro
(`macros/src/lib.rs`), and the deferred-destruction, configuration and
statistics components described by the crate documentation and the
specification — and proves the specified properties about them.
-/

namespace Divan

/-! ## Duration model: `src/time/fine_duration.rs`

`mod picos` constants, verbatim from the source (Rust `1_000`-style
separators dropped). -/

namespace picos

def NANOS : Nat := 1000

def MICROS : Nat := 1000 * NANOS

def MILLIS : Nat := 1000 * MICROS

def SEC : Nat := 1000 * MILLIS

def MIN : Nat := 60 * SEC

def HOUR : Nat := 60 * MIN

def DAY : Nat := 24 * HOUR

end picos

/-- The size of the `u128` value domain of `FineDuration.picos`. -/
def u128Size : Nat := 2 ^ 128

/-- `enum TimeScale`, from `src/time/fine_duration.rs`. -/
inductive TimeScale
  | PicoSec
  | NanoSec
  | MicroSec
  | MilliSec
  | Sec
  | Min
  | Hour
  | Day
deriving DecidableEq

/-- `TimeScale::from_picos`: determines the scale of time for representing a
number of picoseconds, translated from the `if`/`else if` chain in the
source. -/
def TimeScale.fromPicos (p : Nat) : TimeScale :=
  if p < picos.NANOS then .PicoSec
  else if p < picos.MICROS then .NanoSec
  else if p < picos.MILLIS then .MicroSec
  else if p < picos.SEC then .MilliSec
  else if p < picos.MIN then .Sec
  else if p < picos.HOUR then .Min
  else if p < picos.DAY then .Hour
  else .Day

/-- `TimeScale::picos`: the number of picoseconds needed to reach this
scale. -/
def TimeScale.picos : TimeScale → Nat
  | .PicoSec => 1
  | .NanoSec => picos.NANOS
  | .MicroSec => picos.MICROS
  | .MilliSec => picos.MILLIS
  | .Sec => picos.SEC
  | .Min => picos.MIN
  | .Hour => picos.HOUR
  | .Day => picos.DAY

/-- `TimeScale::suffix`: the unit suffix. -/
def TimeScale.suffix : TimeScale → String
  | .PicoSec => "ps"
  | .NanoSec => "ns"
  | .MicroSec => "µs"
  | .MilliSec => "ms"
  | .Sec => "s"
  | .Min => "m"
  | .Hour => "h"
  | .Day => "d"

/-- The scale bucket each `TimeScale` covers, written down from the
spec's threshold list in §4.1 (`ps:[0,1e3) · ns:[1e3,1e6) · µs:[1e6,1e9) ·
ms:[1e9,1e12) · s:[1e12,60e12) · m:[60e12,3600e12) · h:[3600e12,86400e12) ·
d:[86400e12,∞)`, thresholds in picoseconds), to be compared with
`TimeScale.fromPicos` from the code. -/
def specBucket (s : TimeScale) (p : Nat) : Prop :=
  match s with
  | .PicoSec => p < 1000
  | .NanoSec => 1000 ≤ p ∧ p < 1000000
  | .MicroSec => 1000000 ≤ p ∧ p < 1000000000
  | .MilliSec => 1000000000 ≤ p ∧ p < 1000000000000
  | .Sec => 1000000000000 ≤ p ∧ p < 60000000000000
  | .Min => 60000000000000 ≤ p ∧ p < 3600000000000000
  | .Hour => 3600000000000000 ≤ p ∧ p < 86400000000000000
  | .Day => 86400000000000000 ≤ p

instance (s : TimeScale) (p : Nat) : Decidable (specBucket s p) := by
  cases s <;> simp only [specBucket] <;> infer_instance

theorem picos_NANOS_eq : picos.NANOS = 1000 := rfl

theorem picos_MICROS_eq : picos.MICROS = 1000000 := rfl

theorem picos_MILLIS_eq : picos.MILLIS = 1000000000 := rfl

theorem picos_SEC_eq : picos.SEC = 1000000000000 := rfl

theorem picos_MIN_eq : picos.MIN = 60000000000000 := rfl

theorem picos_HOUR_eq : picos.HOUR = 3600000000000000 := rfl

theorem picos_DAY_eq : picos.DAY = 86400000000000000 := rfl

/-- The bucket chosen by the code contains the input, per the spec's
thresholds. -/
theorem specBucket_fromPicos (p : Nat) : specBucket (TimeScale.fromPicos p) p := by
  unfold TimeScale.fromPicos
  simp only [picos_NANOS_eq, picos_MICROS_eq, picos_MILLIS_eq, picos_SEC_eq,
    picos_MIN_eq, picos_HOUR_eq, picos_DAY_eq]
  split_ifs <;> simp only [specBucket] <;> omega

/-- No other bucket contains the input. -/
theorem specBucket_unique (p : Nat) (s : TimeScale) (hs : specBucket s p) :
    s = TimeScale.fromPicos p := by
  have hA := specBucket_fromPicos p
  revert hA
  generalize TimeScale.fromPicos p = t
  intro hA
  cases s <;> cases t <;> simp only [specBucket] at hs hA <;> first | rfl | omega

/-- Rust's `std::time::Duration`: a `u64` second count plus a `u32`
subsecond nanosecond count kept below one billion. -/
structure Duration where
  secs : Nat
  nanos : Nat

/-- `Duration::as_nanos`: the total nanosecond count as a `u128`. -/
def Duration.asNanos (d : Duration) : Nat :=
  d.secs * 1000000000 + d.nanos

/-- `impl From<Duration> for FineDuration`:
`Self { picos: duration.as_nanos() * 1_000 }`. -/
def FineDuration.fromDuration (d : Duration) : Nat :=
  d.asNanos * 1000

/-! Small sanity instances for the bucket function. -/

example : TimeScale.fromPicos 999 = .PicoSec := by decide
example : TimeScale.fromPicos 1000 = .NanoSec := by decide
example : TimeScale.fromPicos picos.DAY = .Day := by decide

/-- C2: The eight time-scale buckets partition the `u128` picosecond number
line with no gaps and no overlaps at the spec's thresholds: for every `u128`
picosecond value `p`, `TimeScale.fromPicos` assigns a bucket, `p` lies in
that bucket's spec interval, and no other bucket's interval contains `p`. -/
theorem fromPicos_partitions (p : Nat) (hp : p < u128Size) :
    specBucket (TimeScale.fromPicos p) p ∧
      ∀ s : TimeScale, specBucket s p → s = TimeScale.fromPicos p :=
  ⟨specBucket_fromPicos p, fun s hs => specBucket_unique p s hs⟩

/-- Witness for C2 at a concrete input. -/
theorem fromPicos_partitions_witness :
    specBucket (TimeScale.fromPicos 123456) 123456 ∧
      ∀ s : TimeScale, specBucket s 123456 → s = TimeScale.fromPicos 123456 :=
  fromPicos_partitions 123456 (by norm_num [u128Size])

/-- C3: Converting a nanosecond-resolution `Duration` into the picosecond
model is exact: the resulting `picos` field equals the total nanosecond
count times 1000, and that product stays below `2^128`, so the `u128`
multiplication cannot overflow. -/
theorem fromDuration_exact (d : Duration)
    (hsecs : d.secs < 2 ^ 64) (hnanos : d.nanos < 1000000000) :
    FineDuration.fromDuration d = d.asNanos * 1000 ∧
      d.asNanos * 1000 < u128Size := by
  refine ⟨rfl, ?_⟩
  unfold Duration.asNanos u128Size
  have h64 : (2 : Nat) ^ 64 = 18446744073709551616 := by norm_num
  have h128 : (2 : Nat) ^ 128 = 340282366920938463463374607431768211456 := by norm_num
  rw [h128]
  rw [h64] at hsecs
  omega

/-- Witness for C3 at a concrete input. -/
theorem fromDuration_exact_witness :
    FineDuration.fromDuration ⟨3, 5⟩ = (Duration.asNanos ⟨3, 5⟩) * 1000 ∧
      (Duration.asNanos ⟨3, 5⟩) * 1000 < u128Size :=
  fromDuration_exact ⟨3, 5⟩ (by norm_num) (by norm_num)

/-! ## Display formatting: `impl fmt::Display for FineDuration` -/

/-- `const SIG_FIGS: usize = 4` from the source. -/
def SIG_FIGS : Nat := 4

/-- The number of integer digits the source computes as
`1 + val.trunc().log10() as usize`: for `val.trunc() = 0` the float `log10`
is `-inf` and the saturating `usize` cast yields `0`, so the result is `1`;
otherwise it is `1 + ⌊log10 m⌋`, the decimal digit count (`log10` of a
small-integer-valued f64 is exact enough that the truncating cast equals
the mathematical floor on the range reached here, `m < 1000`). -/
def intDigits (m : Nat) : Nat :=
  if m = 0 then 1 else Nat.log 10 m + 1

/-- The numeric value printed by `impl fmt::Display for FineDuration`, as
the exact pair (mantissa, fractional-digit count): the printed decimal is
`mantissa / 10 ^ f`.  Translated from the source:
* when `picos >= picos::DAY * 1000`, the output is the integer
  `picos / picos::DAY`;
* otherwise `val = (((picos * 1000) / scale.picos()) as f64) / 1000.0` is
  printed with its fractional part truncated to
  `SIG_FIGS.saturating_sub(int_digits)` digits (dropping trailing zeros).
In the second branch `n = (picos * 1000) / scale.picos() < 10^6`, so the
`as f64` cast is exact and `n / 1000.0` rounds to the f64 nearest
`n / 1000`; Rust's shortest-round-trip `to_string` prints exactly the
decimal `n / 1000` (a shorter decimal differs from it by at least `10⁻³`,
far above one ulp of a value below `1000`), and truncating that decimal
string to `f` fractional digits — including the no-op cases where the
fraction is already at most `f` digits long — leaves the numeric value
`(n * 10 ^ f / 1000) / 10 ^ f`. -/
def displayMantissa (p : Nat) : Nat × Nat :=
  if picos.DAY * 1000 ≤ p then (p / picos.DAY, 0)
  else
    let S := (TimeScale.fromPicos p).picos
    let n := p * 1000 / S
    let f := SIG_FIGS - intDigits (n / 1000)
    (n * 10 ^ f / 1000, f)

/-- The numeric value printed by the `Display` implementation, as an exact
rational. -/
def displayNum (p : Nat) : ℚ :=
  ((displayMantissa p).1 : ℚ) / 10 ^ (displayMantissa p).2

theorem displayMantissa_day (p : Nat) (hp : picos.DAY * 1000 ≤ p) :
    displayMantissa p = (p / picos.DAY, 0) := by
  simp only [displayMantissa, if_pos hp]

theorem displayMantissa_float (p : Nat) (hp : ¬ picos.DAY * 1000 ≤ p) :
    displayMantissa p =
      (p * 1000 / (TimeScale.fromPicos p).picos *
          10 ^ (SIG_FIGS - intDigits (p * 1000 / (TimeScale.fromPicos p).picos / 1000)) / 1000,
        SIG_FIGS - intDigits (p * 1000 / (TimeScale.fromPicos p).picos / 1000)) := by
  simp only [displayMantissa, if_neg hp]

/-! Facts about `intDigits`. -/

theorem intDigits_pos (m : Nat) : 1 ≤ intDigits m := by
  unfold intDigits
  split <;> omega

theorem lt_pow_intDigits (m : Nat) : m < 10 ^ intDigits m := by
  unfold intDigits
  split
  · omega
  · simpa using Nat.lt_pow_succ_log_self (by norm_num) m

theorem pow_intDigits_le (m : Nat) (hm : m ≠ 0) : 10 ^ (intDigits m - 1) ≤ m := by
  unfold intDigits
  rw [if_neg hm]
  simpa using Nat.pow_log_le_self 10 hm

theorem intDigits_mono {m m' : Nat} (h : m ≤ m') : intDigits m ≤ intDigits m' := by
  rcases Nat.eq_zero_or_pos m with h0 | h0
  · subst h0
    exact intDigits_pos m'
  · have hm : m ≠ 0 := by omega
    have hm' : m' ≠ 0 := by omega
    unfold intDigits
    rw [if_neg hm, if_neg hm']
    exact Nat.succ_le_succ (Nat.log_mono_right h)

theorem intDigits_le_three (m : Nat) (hm : m < 1000) : intDigits m ≤ 3 := by
  by_contra h
  have h4 : 4 ≤ intDigits m := by omega
  have hm0 : m ≠ 0 := by
    intro h0
    subst h0
    simp [intDigits] at h4
  have := pow_intDigits_le m hm0
  have : 10 ^ 3 ≤ m := le_trans (Nat.pow_le_pow_right (by norm_num) (by omega)) this
  omega

/-- Helper for evaluating `intDigits` at concrete inputs. -/
theorem intDigits_eval (m d : Nat) (h1 : 10 ^ d ≤ m) (h2 : m < 10 ^ (d + 1)) :
    intDigits m = d + 1 := by
  have hm : m ≠ 0 := by
    have : 1 ≤ 10 ^ d := Nat.one_le_pow _ _ (by norm_num)
    omega
  unfold intDigits
  rw [if_neg hm, Nat.log_eq_of_pow_le_of_lt_pow h1 h2]

/-! Facts about the scale of a value. -/

theorem scale_picos_pos (s : TimeScale) : 0 < s.picos := by
  cases s <;> decide

/-- Every value strictly below the integer-day threshold is below 1000
times its own scale's size. -/
theorem lt_1000_scale (p : Nat) (hp : p < picos.DAY * 1000) :
    p < 1000 * (TimeScale.fromPicos p).picos := by
  revert hp
  unfold TimeScale.fromPicos
  split_ifs <;>
    simp only [TimeScale.picos, picos_NANOS_eq, picos_MICROS_eq, picos_MILLIS_eq,
      picos_SEC_eq, picos_MIN_eq, picos_HOUR_eq, picos_DAY_eq] at * <;>
    omega

/-- The day bucket is exactly the values of at least one day. -/
theorem fromPicos_eq_day_iff (p : Nat) :
    TimeScale.fromPicos p = .Day ↔ picos.DAY ≤ p := by
  unfold TimeScale.fromPicos
  split_ifs <;>
    simp_all only [picos_NANOS_eq, picos_MICROS_eq, picos_MILLIS_eq,
      picos_SEC_eq, picos_MIN_eq, picos_HOUR_eq, picos_DAY_eq] <;>
    simp <;> omega

/-- The float-branch printed value as a function of the intermediate
integer `n = (picos * 1000) / scale.picos()` of the source. -/
def floatVal (n : Nat) : ℚ :=
  ((n * 10 ^ (SIG_FIGS - intDigits (n / 1000)) / 1000 : Nat) : ℚ) /
    10 ^ (SIG_FIGS - intDigits (n / 1000))

theorem displayNum_float (p : Nat) (hp : ¬ picos.DAY * 1000 ≤ p) :
    displayNum p = floatVal (p * 1000 / (TimeScale.fromPicos p).picos) := by
  rw [displayNum, displayMantissa_float p hp]
  rfl

theorem displayNum_day (p : Nat) (hp : picos.DAY * 1000 ≤ p) :
    displayNum p = ((p / picos.DAY : Nat) : ℚ) := by
  rw [displayNum, displayMantissa_day p hp]
  norm_num

/-- Truncation never rounds up: the float-branch printed value is at most
the exact value `n / 1000` it truncates. -/
theorem floatVal_le (n : Nat) : floatVal n ≤ (n : ℚ) / 1000 := by
  unfold floatVal
  have hf : (0 : ℚ) < 10 ^ (SIG_FIGS - intDigits (n / 1000)) := by positivity
  rw [div_le_div_iff hf (by norm_num)]
  calc ((n * 10 ^ (SIG_FIGS - intDigits (n / 1000)) / 1000 : Nat) : ℚ) * 1000
      ≤ (n : ℚ) * 10 ^ (SIG_FIGS - intDigits (n / 1000)) / 1000 * 1000 := by
        have h := (Nat.cast_div_le (α := ℚ)
          (m := n * 10 ^ (SIG_FIGS - intDigits (n / 1000))) (n := 1000))
        push_cast at h
        exact mul_le_mul_of_nonneg_right h (by norm_num)
    _ = (n : ℚ) * 10 ^ (SIG_FIGS - intDigits (n / 1000)) := by ring

/-- The float-branch mantissa is below `10 ^ (intDigits + fractDigits)`. -/
theorem mant_lt (n : Nat) :
    n * 10 ^ (SIG_FIGS - intDigits (n / 1000)) / 1000 <
      10 ^ (intDigits (n / 1000)) * 10 ^ (SIG_FIGS - intDigits (n / 1000)) := by
  rw [Nat.div_lt_iff_lt_mul (by norm_num : 0 < 1000)]
  have hna : n < (n / 1000 + 1) * 1000 := by
    have h1 := Nat.div_add_mod n 1000
    have h2 : n % 1000 < 1000 := Nat.mod_lt _ (by norm_num)
    omega
  calc n * 10 ^ (SIG_FIGS - intDigits (n / 1000))
      < (n / 1000 + 1) * 1000 * 10 ^ (SIG_FIGS - intDigits (n / 1000)) :=
        (Nat.mul_lt_mul_right (Nat.pow_pos (by norm_num))).mpr hna
    _ ≤ 10 ^ (intDigits (n / 1000)) * 1000 * 10 ^ (SIG_FIGS - intDigits (n / 1000)) :=
        Nat.mul_le_mul_right _ (Nat.mul_le_mul_right _
          (by have := lt_pow_intDigits (n / 1000); omega))
    _ = 10 ^ (intDigits (n / 1000)) * 10 ^ (SIG_FIGS - intDigits (n / 1000)) * 1000 := by
        ring

/-- The float-branch mantissa is at least the integer part shifted by the
fractional digit count. -/
theorem mant_ge (n : Nat) :
    n / 1000 * 10 ^ (SIG_FIGS - intDigits (n / 1000)) ≤
      n * 10 ^ (SIG_FIGS - intDigits (n / 1000)) / 1000 := by
  rw [Nat.le_div_iff_mul_le (by norm_num : 0 < 1000)]
  calc n / 1000 * 10 ^ (SIG_FIGS - intDigits (n / 1000)) * 1000
      = n / 1000 * 1000 * 10 ^ (SIG_FIGS - intDigits (n / 1000)) := by ring
    _ ≤ n * 10 ^ (SIG_FIGS - intDigits (n / 1000)) :=
        Nat.mul_le_mul_right _ (Nat.div_mul_le_self n 1000)

/-- Monotonicity of the float-branch printed value in `n`. -/
theorem floatVal_mono {na nb : Nat} (h : na ≤ nb) : floatVal na ≤ floatVal nb := by
  have hma : na / 1000 ≤ nb / 1000 := Nat.div_le_div_right h
  have hd : intDigits (na / 1000) ≤ intDigits (nb / 1000) := intDigits_mono hma
  rcases eq_or_lt_of_le hd with heq | hlt
  · -- same digit count, hence the same fractional precision
    unfold floatVal
    rw [← heq]
    have hmant : na * 10 ^ (SIG_FIGS - intDigits (na / 1000)) / 1000 ≤
        nb * 10 ^ (SIG_FIGS - intDigits (na / 1000)) / 1000 :=
      Nat.div_le_div_right (Nat.mul_le_mul_right _ h)
    have hf : (0 : ℚ) < 10 ^ (SIG_FIGS - intDigits (na / 1000)) := by positivity
    exact (div_le_div_right hf).mpr (by exact_mod_cast hmant)
  · -- the integer part of `nb` has strictly more digits
    have hmb0 : nb / 1000 ≠ 0 := by
      intro h0
      have h2 : intDigits 0 = 1 := rfl
      rw [h0, h2] at hlt
      have h1 := intDigits_pos (na / 1000)
      omega
    have key1 := mant_lt na
    have key2 := mant_ge nb
    have key3 : 10 ^ (intDigits (na / 1000)) ≤ nb / 1000 := by
      have h1 := pow_intDigits_le (nb / 1000) hmb0
      exact le_trans (Nat.pow_le_pow_right (by norm_num) (by omega)) h1
    -- chain the three bounds over ℚ
    have hfa : (0 : ℚ) < 10 ^ (SIG_FIGS - intDigits (na / 1000)) := by positivity
    have hfb : (0 : ℚ) < 10 ^ (SIG_FIGS - intDigits (nb / 1000)) := by positivity
    have step1 : floatVal na < (10 ^ (intDigits (na / 1000)) : ℚ) := by
      unfold floatVal
      rw [div_lt_iff hfa]
      exact_mod_cast key1
    have step2 : ((10 : ℚ) ^ (intDigits (na / 1000))) ≤ ((nb / 1000 : Nat) : ℚ) := by
      exact_mod_cast key3
    have step3 : ((nb / 1000 : Nat) : ℚ) ≤ floatVal nb := by
      unfold floatVal
      rw [le_div_iff hfb]
      exact_mod_cast key2
    exact le_of_lt (lt_of_lt_of_le step1 (le_trans step2 step3))

/-- The two-stage truncation of the float branch (first to 3 fractional
digits by the `* 1000 … / 1000` trick, then to `f ≤ 3` digits by the string
manipulation) equals the direct truncation to `f` fractional digits. -/
theorem mant_eq (p S f : Nat) (hS : 0 < S) (hf : f ≤ 3) :
    p * 1000 / S * 10 ^ f / 1000 = p * 10 ^ f / S := by
  have he : f + (3 - f) = 3 := by omega
  have hk : (1000 : Nat) = 10 ^ f * 10 ^ (3 - f) := by
    rw [← pow_add, he]
    norm_num
  have hKpos : 0 < 10 ^ (3 - f) := Nat.pow_pos (by norm_num)
  have hfpos : 0 < (10 : Nat) ^ f := Nat.pow_pos (by norm_num)
  conv_lhs => rw [hk]
  rw [mul_comm (p * (10 ^ f * 10 ^ (3 - f)) / S) (10 ^ f)]
  rw [Nat.mul_div_mul_left _ _ hfpos]
  rw [Nat.div_div_eq_div_mul]
  rw [← mul_assoc]
  rw [Nat.mul_div_mul_right _ _ hKpos]

/-- C1: Display formatting is monotonic within a scale bucket: for
picosecond values `a < b` mapped by the code to the same time scale, the
numeric value printed for `a` is at most the numeric value printed for
`b`. -/
theorem displayNum_mono (a b : Nat) (hab : a < b)
    (hbucket : TimeScale.fromPicos a = TimeScale.fromPicos b) :
    displayNum a ≤ displayNum b := by
  by_cases hb : picos.DAY * 1000 ≤ b
  · by_cases ha : picos.DAY * 1000 ≤ a
    · -- both in the integer-day branch
      rw [displayNum_day a ha, displayNum_day b hb]
      exact_mod_cast Nat.div_le_div_right (le_of_lt hab)
    · -- `a` in the float branch of the day bucket, `b` in the integer branch
      have hdayb : picos.DAY ≤ b := by
        have h := hb
        rw [picos_DAY_eq] at h ⊢
        omega
      have hsb : TimeScale.fromPicos b = .Day := (fromPicos_eq_day_iff b).mpr hdayb
      have hsa : TimeScale.fromPicos a = .Day := hbucket.trans hsb
      rw [displayNum_float a ha, displayNum_day b hb, hsa]
      have hS : TimeScale.Day.picos = picos.DAY := rfl
      rw [hS]
      have hn6 : a * 1000 / picos.DAY < 1000000 := by
        rw [Nat.div_lt_iff_lt_mul (by rw [picos_DAY_eq]; norm_num)]
        rw [picos_DAY_eq] at ha ⊢
        omega
      have h1000 : (1000 : Nat) ≤ b / picos.DAY := by
        rw [Nat.le_div_iff_mul_le (by rw [picos_DAY_eq]; norm_num)]
        omega
      refine le_of_lt ?_
      calc floatVal (a * 1000 / picos.DAY)
          ≤ ((a * 1000 / picos.DAY : Nat) : ℚ) / 1000 := floatVal_le _
        _ < 1000 := by
            have hn6Q : ((a * 1000 / picos.DAY : Nat) : ℚ) < 1000000 := by
              exact_mod_cast hn6
            linarith
        _ ≤ ((b / picos.DAY : Nat) : ℚ) := by exact_mod_cast h1000
  · -- both in the float branch, with the same scale
    have ha : ¬ picos.DAY * 1000 ≤ a := by omega
    rw [displayNum_float a ha, displayNum_float b hb, hbucket]
    exact floatVal_mono (Nat.div_le_div_right (Nat.mul_le_mul_right _ (le_of_lt hab)))

/-- Witness for C1 at a concrete pair in the nanosecond bucket. -/
theorem displayNum_mono_witness :
    1002 < 1023 ∧ TimeScale.fromPicos 1002 = TimeScale.fromPicos 1023 ∧
      displayNum 1002 ≤ displayNum 1023 :=
  ⟨by norm_num, by decide, displayNum_mono 1002 1023 (by norm_num) (by decide)⟩

/-! Sanity instances of the display model against the repository's own
`fmt` unit tests: `123` → "123ps", `1_234` → "1.234ns", `100_200` →
"100.2ns", `001_020_000` → "1.02µs", `HOUR - 1` → "59.99m",
`DAY + DAY/10` → "1.1d", `DAY * 1000` → "1000d". -/

example : displayMantissa 0 = (0, 3) := by rfl

example : displayMantissa 123 = (1230, 1) := by
  rw [displayMantissa_float 123 (by decide)]
  norm_num [show TimeScale.fromPicos 123 = .PicoSec from by decide, TimeScale.picos,
    SIG_FIGS, intDigits_eval 123 2 (by norm_num) (by norm_num)]

example : displayMantissa 1234 = (1234, 3) := by
  rw [displayMantissa_float 1234 (by decide)]
  norm_num [show TimeScale.fromPicos 1234 = .NanoSec from by decide, TimeScale.picos,
    picos_NANOS_eq, SIG_FIGS, intDigits_eval 1 0 (by norm_num) (by norm_num)]

example : displayMantissa 100200 = (1002, 1) := by
  rw [displayMantissa_float 100200 (by decide)]
  norm_num [show TimeScale.fromPicos 100200 = .NanoSec from by decide, TimeScale.picos,
    picos_NANOS_eq, SIG_FIGS, intDigits_eval 100 2 (by norm_num) (by norm_num)]

example : displayMantissa 1020000 = (1020, 3) := by
  rw [displayMantissa_float 1020000 (by decide)]
  norm_num [show TimeScale.fromPicos 1020000 = .MicroSec from by decide, TimeScale.picos,
    picos_MICROS_eq, SIG_FIGS, intDigits_eval 1 0 (by norm_num) (by norm_num)]

example : displayMantissa 3599999999999999 = (5999, 2) := by
  rw [displayMantissa_float 3599999999999999 (by decide)]
  norm_num [show TimeScale.fromPicos 3599999999999999 = .Min from by decide, TimeScale.picos,
    picos_MIN_eq, SIG_FIGS, intDigits_eval 59 1 (by norm_num) (by norm_num)]

example : displayMantissa 95040000000000000 = (1100, 3) := by
  rw [displayMantissa_float 95040000000000000 (by decide)]
  norm_num [show TimeScale.fromPicos 95040000000000000 = .Day from by decide, TimeScale.picos,
    picos_DAY_eq, SIG_FIGS, intDigits_eval 1 0 (by norm_num) (by norm_num)]

example : displayMantissa (picos.DAY * 1000) = (1000, 0) := by
  rw [displayMantissa_day _ (le_refl _)]
  norm_num [picos_DAY_eq]

theorem nat_lt_div_succ_mul (A S : Nat) (hS : 0 < S) : A < (A / S + 1) * S := by
  have e2 : A % S < S := Nat.mod_lt _ hS
  calc A = S * (A / S) + A % S := (Nat.div_add_mod A S).symm
    _ < S * (A / S) + S := by omega
    _ = (A / S + 1) * S := by ring

/-- C4: Within a scale, the display renders at most 4 significant digits,
removing trailing fractional digits by truncation, never by rounding:
below the 1000-day threshold the printed value is at most the exact scaled
value `p / scale` and lies within `10^-f` below it, with a mantissa below
`10^SIG_FIGS`; at and above 1000 days, the output is the integer day count
`p / DAY` with no fractional part. -/
theorem display_truncates (p : Nat) :
    (¬ picos.DAY * 1000 ≤ p →
      (displayMantissa p).1 < 10 ^ SIG_FIGS ∧
      displayNum p ≤ (p : ℚ) / ((TimeScale.fromPicos p).picos : ℚ) ∧
      (p : ℚ) / ((TimeScale.fromPicos p).picos : ℚ) <
        displayNum p + 1 / 10 ^ (displayMantissa p).2) ∧
    (picos.DAY * 1000 ≤ p →
      displayMantissa p = (p / picos.DAY, 0) ∧
      displayNum p = ((p / picos.DAY : Nat) : ℚ)) := by
  constructor
  · intro hp
    have hSpos : 0 < (TimeScale.fromPicos p).picos := scale_picos_pos _
    have hmf := displayMantissa_float p hp
    have h1000S : p < 1000 * (TimeScale.fromPicos p).picos :=
      lt_1000_scale p (by omega)
    have hn : p * 1000 / (TimeScale.fromPicos p).picos < 1000000 := by
      rw [Nat.div_lt_iff_lt_mul hSpos]
      omega
    have hm : p * 1000 / (TimeScale.fromPicos p).picos / 1000 < 1000 := by
      omega
    have hd3 : intDigits (p * 1000 / (TimeScale.fromPicos p).picos / 1000) ≤ 3 :=
      intDigits_le_three _ hm
    have hd1 : 1 ≤ intDigits (p * 1000 / (TimeScale.fromPicos p).picos / 1000) :=
      intDigits_pos _
    have hf3 : SIG_FIGS - intDigits (p * 1000 / (TimeScale.fromPicos p).picos / 1000) ≤ 3 := by
      unfold SIG_FIGS
      omega
    have hme := mant_eq p (TimeScale.fromPicos p).picos
      (SIG_FIGS - intDigits (p * 1000 / (TimeScale.fromPicos p).picos / 1000)) hSpos hf3
    have hfQ : (0 : ℚ) <
        10 ^ (SIG_FIGS - intDigits (p * 1000 / (TimeScale.fromPicos p).picos / 1000)) := by
      positivity
    have hSQ : (0 : ℚ) < ((TimeScale.fromPicos p).picos : ℚ) := by exact_mod_cast hSpos
    refine ⟨?_, ?_, ?_⟩
    · -- at most 4 significant digits
      rw [hmf]
      have hlt := mant_lt (p * 1000 / (TimeScale.fromPicos p).picos)
      have hpow : intDigits (p * 1000 / (TimeScale.fromPicos p).picos / 1000) +
          (SIG_FIGS - intDigits (p * 1000 / (TimeScale.fromPicos p).picos / 1000)) =
          SIG_FIGS := by
        unfold SIG_FIGS at *
        omega
      calc (p * 1000 / (TimeScale.fromPicos p).picos *
              10 ^ (SIG_FIGS - intDigits (p * 1000 / (TimeScale.fromPicos p).picos / 1000)) /
              1000)
          < 10 ^ (intDigits (p * 1000 / (TimeScale.fromPicos p).picos / 1000)) *
              10 ^ (SIG_FIGS - intDigits (p * 1000 / (TimeScale.fromPicos p).picos / 1000)) :=
            hlt
        _ = 10 ^ SIG_FIGS := by rw [← pow_add, hpow]
    · -- never rounds up: printed ≤ exact scaled value
      rw [displayNum, hmf]
      rw [div_le_div_iff hfQ hSQ]
      have hNat : p * 1000 / (TimeScale.fromPicos p).picos *
            10 ^ (SIG_FIGS - intDigits (p * 1000 / (TimeScale.fromPicos p).picos / 1000)) /
            1000 * (TimeScale.fromPicos p).picos ≤
          p * 10 ^ (SIG_FIGS - intDigits (p * 1000 / (TimeScale.fromPicos p).picos / 1000)) := by
        rw [hme]
        exact Nat.div_mul_le_self _ _
      exact_mod_cast hNat
    · -- and stays within one unit in the last printed digit
      rw [displayNum, hmf, div_add_div_same]
      rw [div_lt_div_iff hSQ hfQ]
      have hNat : p * 10 ^ (SIG_FIGS - intDigits (p * 1000 / (TimeScale.fromPicos p).picos / 1000)) <
          (p * 1000 / (TimeScale.fromPicos p).picos *
              10 ^ (SIG_FIGS - intDigits (p * 1000 / (TimeScale.fromPicos p).picos / 1000)) /
              1000 + 1) * (TimeScale.fromPicos p).picos := by
        rw [hme]
        exact nat_lt_div_succ_mul _ _ hSpos
      exact_mod_cast hNat
  · intro hp
    exact ⟨displayMantissa_day p hp, displayNum_day p hp⟩

/-- Witness for C4 at a concrete input (1234 ps = 1.234 ns). -/
theorem display_truncates_witness :
    (¬ picos.DAY * 1000 ≤ 1234 →
      (displayMantissa 1234).1 < 10 ^ SIG_FIGS ∧
      displayNum 1234 ≤ (1234 : ℚ) / ((TimeScale.fromPicos 1234).picos : ℚ) ∧
      (1234 : ℚ) / ((TimeScale.fromPicos 1234).picos : ℚ) <
        displayNum 1234 + 1 / 10 ^ (displayMantissa 1234).2) ∧
    (picos.DAY * 1000 ≤ 1234 →
      displayMantissa 1234 = (1234 / picos.DAY, 0) ∧
      displayNum 1234 = ((1234 / picos.DAY : Nat) : ℚ)) :=
  display_truncates 1234

/-- C10: Display formatting is total and overflow-free on the whole `u128`
domain: the multiplication `picos * 1000` is reached only under the guard
`picos < DAY * 1000`, where its result stays below `2^128`; every value at
or above the guard takes the integer-day path; and the chosen suffix is
always one of the eight unit suffixes. -/
theorem display_no_overflow (p : Nat) (hp : p < u128Size) :
    (¬ picos.DAY * 1000 ≤ p → p * 1000 < u128Size) ∧
    (picos.DAY * 1000 ≤ p → displayMantissa p = (p / picos.DAY, 0)) ∧
    (TimeScale.fromPicos p).suffix ∈ ["ps", "ns", "µs", "ms", "s", "m", "h", "d"] := by
  refine ⟨?_, fun h => displayMantissa_day p h, ?_⟩
  · intro h
    rw [picos_DAY_eq] at h
    unfold u128Size
    have h128 : (2 : Nat) ^ 128 = 340282366920938463463374607431768211456 := by norm_num
    rw [h128]
    omega
  · cases hs : TimeScale.fromPicos p <;> simp [TimeScale.suffix]

/-- Witness for C10 at `u128::MAX`, which formats as the integer day count
`3938453320844195178974` (matching the repository's `fmt::day` test). -/
theorem display_no_overflow_witness :
    ((¬ picos.DAY * 1000 ≤ u128Size - 1 → (u128Size - 1) * 1000 < u128Size) ∧
      (picos.DAY * 1000 ≤ u128Size - 1 →
        displayMantissa (u128Size - 1) = ((u128Size - 1) / picos.DAY, 0)) ∧
      (TimeScale.fromPicos (u128Size - 1)).suffix ∈
        ["ps", "ns", "µs", "ms", "s", "m", "h", "d"]) ∧
    (u128Size - 1) / picos.DAY = 3938453320844195178974 :=
  ⟨display_no_overflow (u128Size - 1) (by norm_num [u128Size]), by norm_num [u128Size, picos_DAY_eq]⟩

/-! ## Registration macro: `macros/src/lib.rs` -/

/-- `__private::BenchLoop`: the execution-variant tag the generated entry
carries.  `Static` wraps a zero-argument routine driven entirely by the
scheduler's `bench_loop`; `Runtime` passes the function itself, which
receives a `Bencher` measurement handle. -/
inductive BenchLoop
  | Static
  | Runtime
deriving DecidableEq

/-- `__private::Entry`: the registration record the macro emits into the
distributed slice (callables abstracted away, the `get_id` closure by the
type id it returns). -/
structure Entry where
  name : String
  path : String
  file : String
  line : Nat
  ignore : Bool
  bench_loop : BenchLoop
  get_id : Nat

/-- The syntactic facts about a `#[divan::bench]`-annotated function item
that the macro expansion in `macros/src/lib.rs` consumes. -/
structure FnItem where
  fn_name : String
  module_path : String
  file : String
  line : Nat
  attrs : List String
  arg_count : Nat
  name_expr : Option String
  type_id : Nat

/-- The `r#` marker stripped from raw identifiers by
`fn_name.strip_prefix("r#")`. -/
def rawMarker : String := "r#"

/-- `bench_path_expr`: `concat!(module_path!(), "::", fn_name)` with a
leading `r#` removed from the function name. -/
def benchPathExpr (f : FnItem) : String :=
  f.module_path ++ "::" ++
    (if f.fn_name.startsWith rawMarker then f.fn_name.drop 2 else f.fn_name)

/-- The expansion of `#[divan::bench]` on a function item: the single
`static __DIVAN_BENCH_ENTRY: Entry` placed in an anonymous `const _`
scope.  The `ignore` flag comes from the attribute scan
(`for attr in &fn_item.attrs { if path.is_ident("ignore") ... }`), and the
bench-loop variant from whether `fn_args.is_empty()`. -/
def expandBench (f : FnItem) : List Entry :=
  [{ name := f.name_expr.getD (benchPathExpr f)
     path := benchPathExpr f
     file := f.file
     line := f.line
     ignore := f.attrs.any (fun a => a == "ignore")
     bench_loop := if f.arg_count = 0 then .Static else .Runtime
     get_id := f.type_id }]

/-- C6: The expansion of `#[divan::bench]` registers exactly one `Entry`,
whose display name defaults to the fully-qualified path when no `name`
option is given, whose path/file/line mirror the definition site, whose
ignore flag is set iff an `#[ignore]` attribute is present, whose
execution variant is `Static` iff the function takes zero arguments, and
whose identity token is the function item's type id. -/
theorem expandBench_spec (f : FnItem) :
    (expandBench f).length = 1 ∧
    ∀ e ∈ expandBench f,
      e.path = benchPathExpr f ∧
      (f.name_expr = none → e.name = e.path) ∧
      (∀ s, f.name_expr = some s → e.name = s) ∧
      e.file = f.file ∧
      e.line = f.line ∧
      (e.ignore = true ↔ "ignore" ∈ f.attrs) ∧
      (e.bench_loop = .Static ↔ f.arg_count = 0) ∧
      e.get_id = f.type_id := by
  refine ⟨rfl, ?_⟩
  intro e he
  simp only [expandBench, List.mem_singleton] at he
  subst he
  refine ⟨rfl, ?_, ?_, rfl, rfl, ?_, ?_, rfl⟩
  · intro h
    simp [h]
  · intro s h
    simp [h]
  · simp only [List.any_eq_true, beq_iff_eq]
    constructor
    · rintro ⟨x, hx, rfl⟩
      exact hx
    · intro h
      exact ⟨_, h, rfl⟩
  · by_cases h : f.arg_count = 0 <;> simp [h]

/-- Witness for C6 at a concrete function item: one argument, no name
override, an `#[ignore]` attribute present. -/
theorem expandBench_spec_witness :
    (expandBench ⟨"bench_me", "crate::benches", "benches.rs", 10,
        ["ignore"], 1, none, 77⟩).length = 1 ∧
    ∀ e ∈ expandBench ⟨"bench_me", "crate::benches", "benches.rs", 10,
        ["ignore"], 1, none, 77⟩,
      e.path = benchPathExpr ⟨"bench_me", "crate::benches", "benches.rs", 10,
        ["ignore"], 1, none, 77⟩ ∧
      ((⟨"bench_me", "crate::benches", "benches.rs", 10,
        ["ignore"], 1, none, 77⟩ : FnItem).name_expr = none → e.name = e.path) ∧
      (∀ s, (⟨"bench_me", "crate::benches", "benches.rs", 10,
        ["ignore"], 1, none, 77⟩ : FnItem).name_expr = some s → e.name = s) ∧
      e.file = "benches.rs" ∧
      e.line = 10 ∧
      (e.ignore = true ↔ "ignore" ∈ ["ignore"]) ∧
      (e.bench_loop = .Static ↔ (1 : Nat) = 0) ∧
      e.get_id = 77 :=
  expandBench_spec ⟨"bench_me", "crate::benches", "benches.rs", 10, ["ignore"], 1, none, 77⟩

/-! ## Deferred-destruction buffer

The buffer implementation (the `defer` and `bench` modules) is not among
the provided sources; the model below follows the spec's §4.2 contract and
the `Drop` section of the `bench` attribute documentation in `src/lib.rs`,
which states that a returned value "will not be dropped until after the
current sample loop is finished" and that "if the benchmark panics, the
values will never be dropped". -/

/-- Outcome of one benchmarked iteration: a produced value, or abnormal
termination (a panic) during the iteration. -/
inductive IterOutcome (α : Type)
  | value : α → IterOutcome α
  | panicked : IterOutcome α

/-- Observable outcome of running one sample with deferred destruction. -/
structure SampleResult (α : Type) where
  releasedInWindow : List α
  releasedAfter : List α
  leaked : List α
  panicked : Bool
  finalBufferLen : Nat

/-- Modelled from the spec: the iteration loop of one sample.  Runs
iterations `i, i + 1, …` while `fuel` remains, moving each produced value
into the deferred buffer without invoking cleanup; stops early when an
iteration panics, in which case the panicking iteration buffers nothing. -/
def runIters {α : Type} (routine : Nat → IterOutcome α) :
    Nat → Nat → List α → List α × Bool
  | _, 0, buf => (buf, false)
  | i, fuel + 1, buf =>
    match routine i with
    | .value v => runIters routine (i + 1) fuel (buf ++ [v])
    | .panicked => (buf, true)

/-- Modelled from the spec: one sample of `sample_size` iterations with
deferred destruction (`defer`/`bench` modules absent from the sources).
On normal completion the buffer is fully drained after the timed window
closes; per the `bench` documentation in `src/lib.rs`, on a panic the
already-buffered values are never dropped — they leak. -/
def runSample {α : Type} (routine : Nat → IterOutcome α) (sample_size : Nat) :
    SampleResult α :=
  match runIters routine 0 sample_size [] with
  | (buf, true) =>
      { releasedInWindow := []
        releasedAfter := []
        leaked := buf
        panicked := true
        finalBufferLen := buf.length }
  | (buf, false) =>
      { releasedInWindow := []
        releasedAfter := buf
        leaked := []
        panicked := false
        finalBufferLen := 0 }

/-- The deferred buffer grows by at most one entry per iteration. -/
theorem runIters_len {α : Type} (routine : Nat → IterOutcome α) :
    ∀ (fuel i : Nat) (buf : List α),
      (runIters routine i fuel buf).1.length ≤ buf.length + fuel := by
  intro fuel
  induction fuel with
  | zero =>
    intro i buf
    simp [runIters]
  | succ fuel ih =>
    intro i buf
    rw [runIters]
    cases routine i with
    | value v =>
      have h := ih (i + 1) (buf ++ [v])
      simp at h ⊢
      omega
    | panicked =>
      simp

/-- If iterations `i, …, i + j - 1` produce values and iteration `i + j`
panics within the fuel budget, the loop stops with exactly those `j`
values buffered. -/
theorem runIters_panic {α : Type} (routine : Nat → IterOutcome α) (v : Nat → α) :
    ∀ (j fuel i : Nat) (buf : List α),
      j < fuel →
      (∀ k, k < j → routine (i + k) = .value (v (i + k))) →
      routine (i + j) = .panicked →
      runIters routine i fuel buf =
        (buf ++ (List.range j).map (fun k => v (i + k)), true) := by
  intro j
  induction j with
  | zero =>
    intro fuel i buf hj hval hpanic
    obtain ⟨fuel', rfl⟩ : ∃ fuel', fuel = fuel' + 1 := ⟨fuel - 1, by omega⟩
    rw [runIters]
    simp only [Nat.add_zero] at hpanic
    rw [hpanic]
    simp
  | succ j ih =>
    intro fuel i buf hj hval hpanic
    obtain ⟨fuel', rfl⟩ : ∃ fuel', fuel = fuel' + 1 := ⟨fuel - 1, by omega⟩
    rw [runIters]
    have h0 : routine i = .value (v i) := by
      have h := hval 0 (by omega)
      simpa using h
    rw [h0]
    show runIters routine (i + 1) fuel' (buf ++ [v i]) = _
    have hrec := ih fuel' (i + 1) (buf ++ [v i]) (by omega)
      (fun k hk => by
        have h := hval (k + 1) (by omega)
        rw [show i + (k + 1) = i + 1 + k by omega] at h
        exact h)
      (by rw [show i + 1 + j = i + (j + 1) by omega]; exact hpanic)
    rw [hrec]
    congr 1
    rw [List.range_succ_eq_map]
    simp [List.map_map, Function.comp]
    intro a _
    congr 1
    omega

/-- C5 counterexample: a routine that produces the value 42 in its first
iteration and panics in its second.  The sample reports the panic, yet the
already-buffered value 42 is leaked — its cleanup is never invoked, during
the unwind or otherwise — contradicting the claim that buffered values are
released during abnormal unwind. -/
theorem panic_releases_counterexample :
    (runSample (fun i => if i = 0 then .value 42 else .panicked) 2).panicked = true ∧
    (runSample (fun i => if i = 0 then .value 42 else .panicked) 2).leaked = [42] ∧
    ¬ ((42 : Nat) ∈
        (runSample (fun i => if i = 0 then .value 42 else .panicked) 2).releasedInWindow ∨
      (42 : Nat) ∈
        (runSample (fun i => if i = 0 then .value 42 else .panicked) 2).releasedAfter) :=
  ⟨rfl, rfl, by simp [runSample, runIters]⟩

/-- C5 (amended): if the routine panics mid-iteration, no value is
buffered for the panicking iteration, and the values already buffered for
the in-progress sample are never released — per the crate documentation
they leak rather than being dropped during the abnormal unwind. -/
theorem panic_leaves_buffer_unreleased {α : Type} (routine : Nat → IterOutcome α)
    (v : Nat → α) (j sample_size : Nat) (hj : j < sample_size)
    (hval : ∀ k, k < j → routine k = .value (v k))
    (hpanic : routine j = .panicked) :
    runSample routine sample_size =
      { releasedInWindow := []
        releasedAfter := []
        leaked := (List.range j).map v
        panicked := true
        finalBufferLen := j } := by
  unfold runSample
  have h := runIters_panic routine v j sample_size 0 [] hj
    (fun k hk => by simpa using hval k hk) (by simpa using hpanic)
  rw [h]
  simp

/-- Witness for C5 (amended) at the concrete counterexample routine. -/
theorem panic_leaves_buffer_unreleased_witness :
    runSample (fun i => if i = 0 then .value (42 : Nat) else .panicked) 2 =
      { releasedInWindow := []
        releasedAfter := []
        leaked := (List.range 1).map (fun _ => (42 : Nat))
        panicked := true
        finalBufferLen := 1 } :=
  panic_leaves_buffer_unreleased (fun i => if i = 0 then .value (42 : Nat) else .panicked)
    (fun _ => (42 : Nat)) 1 2 (by norm_num)
    (fun k hk => by interval_cases k <;> rfl) rfl

/-- C9: during normal execution no produced value is released inside the
timed window — each is moved into the deferred buffer without invoking
cleanup — the buffer is fully drained at the sample boundary so its length
is zero after every completed sample, nothing leaks, and the buffer's
growth within one sample is bounded by `sample_size` entries. -/
theorem deferred_buffer_invariants {α : Type} (routine : Nat → IterOutcome α)
    (sample_size : Nat)
    (hok : (runSample routine sample_size).panicked = false) :
    (runSample routine sample_size).releasedInWindow = [] ∧
    (runSample routine sample_size).finalBufferLen = 0 ∧
    (runSample routine sample_size).leaked = [] ∧
    (runSample routine sample_size).releasedAfter.length ≤ sample_size := by
  unfold runSample at hok ⊢
  rcases hr : runIters routine 0 sample_size [] with ⟨buf, pan⟩
  rw [hr] at hok
  cases pan
  · refine ⟨rfl, rfl, rfl, ?_⟩
    have h := runIters_len routine sample_size 0 []
    rw [hr] at h
    simpa using h
  · exact Bool.noConfusion hok

/-- Witness for C9 at a routine producing its index for three
iterations. -/
theorem deferred_buffer_invariants_witness :
    (runSample (fun i => IterOutcome.value i) 3).panicked = false ∧
    ((runSample (fun i => IterOutcome.value i) 3).releasedInWindow = [] ∧
      (runSample (fun i => IterOutcome.value i) 3).finalBufferLen = 0 ∧
      (runSample (fun i => IterOutcome.value i) 3).leaked = [] ∧
      (runSample (fun i => IterOutcome.value i) 3).releasedAfter.length ≤ 3) :=
  ⟨rfl, deferred_buffer_invariants (fun i => IterOutcome.value i) 3 rfl⟩

/-! ## Configuration resolver

The resolver implementation (`config`/`divan` modules) is not among the
provided sources; the model below follows §4.5 of the spec and the option
documentation of the `bench`/`bench_group` attributes in `src/lib.rs`
(declared values "may be overridden at runtime using either the
`DIVAN_SAMPLE_COUNT` environment variable or `--sample-count` CLI
argument", and group options "cascade into child groups and their
benchmarks"). -/

/-- Modelled from the spec: the inputs from which one option of one entry
is resolved — the command-line flag, the environment variable, the value
declared directly on the entry, the chain of enclosing groups' declared
values from innermost to outermost, and the built-in default. -/
structure OptSources (α : Type) where
  cli : Option α
  env : Option α
  entry : Option α
  groups : List (Option α)
  dflt : α

/-- Modelled from the spec: the nearest enclosing group's declaration,
walking the group chain from innermost to outermost. -/
def firstGroupDecl {α : Type} : List (Option α) → Option α
  | [] => none
  | some v :: _ => some v
  | none :: rest => firstGroupDecl rest

/-- Modelled from the spec: option resolution with precedence
command-line flag → environment variable → entry declaration → nearest
enclosing group → outer groups → built-in default. -/
def resolveOption {α : Type} (s : OptSources α) : α :=
  match s.cli with
  | some v => v
  | none =>
    match s.env with
    | some v => v
    | none =>
      match s.entry with
      | some v => v
      | none =>
        match firstGroupDecl s.groups with
        | some v => v
        | none => s.dflt

/-- C7: Option resolution applies the fixed precedence command-line flag →
environment variable → entry declaration → nearest enclosing group →
outer groups → built-in default; in particular a child entry with no
override under a group declaring `sample_count = 100` resolves to 100, and
a `--sample-count=7` command-line flag resolves to 7 regardless of any
declared value at any level. -/
theorem resolveOption_precedence :
    (∀ (s : OptSources Nat) (v : Nat), s.cli = some v → resolveOption s = v) ∧
    (∀ (s : OptSources Nat) (v : Nat), s.cli = none → s.env = some v →
      resolveOption s = v) ∧
    (∀ (s : OptSources Nat) (v : Nat), s.cli = none → s.env = none →
      s.entry = some v → resolveOption s = v) ∧
    (∀ (s : OptSources Nat) (v : Nat), s.cli = none → s.env = none →
      s.entry = none → firstGroupDecl s.groups = some v → resolveOption s = v) ∧
    (∀ (s : OptSources Nat), s.cli = none → s.env = none → s.entry = none →
      firstGroupDecl s.groups = none → resolveOption s = s.dflt) ∧
    (∀ (v : Nat) (rest : List (Option Nat)),
      firstGroupDecl (some v :: rest) = some v ∧
      firstGroupDecl (none :: rest) = firstGroupDecl rest) ∧
    (∀ dflt : Nat, resolveOption ⟨none, none, none, [some 100], dflt⟩ = 100) ∧
    (∀ (env entry : Option Nat) (groups : List (Option Nat)) (dflt : Nat),
      resolveOption ⟨some 7, env, entry, groups, dflt⟩ = 7) := by
  refine ⟨?_, ?_, ?_, ?_, ?_, ?_, ?_, ?_⟩
  · intro s v h
    simp [resolveOption, h]
  · intro s v h1 h2
    simp [resolveOption, h1, h2]
  · intro s v h1 h2 h3
    simp [resolveOption, h1, h2, h3]
  · intro s v h1 h2 h3 h4
    simp [resolveOption, h1, h2, h3, h4]
  · intro s h1 h2 h3 h4
    simp [resolveOption, h1, h2, h3, h4]
  · intro v rest
    exact ⟨rfl, rfl⟩
  · intro dflt
    rfl
  · intro env entry groups dflt
    rfl

/-- Witness for C7: the two concrete resolution scenarios of the spec. -/
theorem resolveOption_precedence_witness :
    resolveOption ⟨none, none, none, [some 100], 64⟩ = 100 ∧
    resolveOption ⟨some 7, none, some 100, [some 100], 64⟩ = 7 :=
  ⟨resolveOption_precedence.2.2.2.2.2.2.1 64,
    resolveOption_precedence.2.2.2.2.2.2.2 none (some 100) [some 100] 64⟩

/-! ## Statistics aggregator

The statistics implementation (`stats` module) is not among the provided
sources; the model below follows §4.4 of the spec. -/

/-- Modelled from the spec: the mean of a completed sample set (sum over
count). -/
def mean (xs : List ℚ) : ℚ := xs.sum / xs.length

/-- Modelled from the spec: sorted insertion, used to sort a copy of the
samples. -/
def insertSorted (x : ℚ) : List ℚ → List ℚ
  | [] => [x]
  | y :: rest => if x ≤ y then x :: y :: rest else y :: insertSorted x rest

/-- Modelled from the spec: sort a copy of the samples. -/
def sortSamples : List ℚ → List ℚ
  | [] => []
  | x :: rest => insertSorted x (sortSamples rest)

/-- Modelled from the spec: the median — sort a copy of the samples, take
the middle element for odd N, the average of the two middle elements for
even N. -/
def median (xs : List ℚ) : ℚ :=
  if xs.length % 2 = 1 then (sortSamples xs).getD (xs.length / 2) 0
  else
    ((sortSamples xs).getD (xs.length / 2 - 1) 0 +
      (sortSamples xs).getD (xs.length / 2) 0) / 2

/-- Modelled from the spec: the minimum of a completed sample set. -/
def sampleMin : List ℚ → ℚ
  | [] => 0
  | x :: rest => rest.foldl min x

/-- Modelled from the spec: the maximum of a completed sample set. -/
def sampleMax : List ℚ → ℚ
  | [] => 0
  | x :: rest => rest.foldl max x

/-- Modelled from the spec: the two-pass population variance — the mean of
squared deviations from the mean (the standard deviation is its square
root). -/
def popVariance (xs : List ℚ) : ℚ :=
  (xs.map (fun x => (x - mean xs) ^ 2)).sum / xs.length

/-- C8: On the sample set {1, 2, 3, 4, 5} the aggregator yields mean 3,
median 3 (middle element of the sorted copy, odd N), min 1, max 5, and
standard deviation √2 (population formula: the variance, the mean of the
squared deviations from the mean, is 2); on the even-length {1, 2, 3, 4}
the median averages the two middle elements. -/
theorem stats_example :
    mean [1, 2, 3, 4, 5] = 3 ∧
    median [1, 2, 3, 4, 5] = 3 ∧
    sampleMin [1, 2, 3, 4, 5] = 1 ∧
    sampleMax [1, 2, 3, 4, 5] = 5 ∧
    popVariance [1, 2, 3, 4, 5] = 2 ∧
    Real.sqrt ((popVariance [1, 2, 3, 4, 5] : ℚ) : ℝ) = Real.sqrt 2 ∧
    median [1, 2, 3, 4] = (2 + 3) / 2 := by
  have hvar : popVariance [1, 2, 3, 4, 5] = 2 := by
    norm_num [popVariance, mean]
  refine ⟨?_, ?_, ?_, ?_, hvar, ?_, ?_⟩
  · norm_num [mean]
  · norm_num [median, sortSamples, insertSorted]
  · norm_num [sampleMin]
  · norm_num [sampleMax]
  · rw [hvar]
    norm_num
  · norm_num [median, sortSamples, insertSorted]

end Divan
